import Mathlib

/-!
Verification of the regulatory-message assembler in
src/pingan-clients/regulatory.js against its specification.

JavaScript strings are modelled as lists of characters; JavaScript objects
used as key/value maps are modelled as association lists; a thrown exception
is modelled with the Except monad.
-/

namespace PinganRegulatory

/-- JavaScript strings, modelled as lists of characters. -/
abbrev Str := List Char

/-- A JavaScript exception: either an Error thrown by the source with its
message string, or an unclassified runtime TypeError (for example, iterating
an undefined value with for..of). -/
inductive JsError where
  | thrown (msg : String)
  | typeError
deriving DecidableEq, Repr

/-- Message of the Error thrown at regulatory.js line 64.  The source builds
it from plain single-quoted string literals. -/
def invalidFunctionCodeMsg : String := "[PINGAN] Pingan Invalid Function Code"

/-- Message of the Error thrown at regulatory.js lines 84-85.  The source
concatenates two plain single-quoted literals, so the $\x7b...\x7d fragments
are literal text, not interpolation. -/
def missingKeyMsg : String :=
  "[PINGAN] Missing key $\x7bkeyObject.key\x7d for function $\x7bself._functionCode\x7d"

/-- Message of the Error thrown at regulatory.js lines 94-95 (plain
single-quoted literals, no interpolation). -/
def incorrectKeyMsg : String :=
  "[PINGAN] Incorrect key $\x7bkeyObject.key\x7d format for function $\x7bself._functionCode\x7d"

/-- Message of the Error thrown at regulatory.js lines 97-98 (plain
single-quoted literals, no interpolation). -/
def keyOverflowMsg : String :=
  "[PINGAN] Key $\x7bkeyObject.key\x7d overflow for function $\x7bself._functionCode\x7d"

/-- padString from regulatory.js lines 32-43.  spacer is replaced by its
first character, or by the character 0 when it is empty (falsy); the value is
returned unchanged at exact width, left-truncated to its trailing characters
when too long, and left-padded otherwise (Array(n).join(c) yields n-1 copies
of c, here width - length copies). -/
def padString (s : Str) (width : Nat) (spacer : Str) : Str :=
  let sp := if spacer = [] then ['0'] else spacer.take 1
  if s.length = width then s
  else if s.length > width then s.drop (s.length - width)
  else (List.replicate (width - s.length) sp).flatten ++ s

/-- JavaScript number-to-string conversion for the natural numbers that occur
here (buffer byte lengths): decimal representation. -/
def numToString (n : Nat) : Str := (Nat.repr n).toList

/-- The value of a field descriptor's type member: the source only ever
compares it with the String constructor (keyObject.type === String). -/
inductive FieldType where
  | stringType
  | other
deriving DecidableEq, Repr

/-- One scalar field descriptor of a schema (see spec section 3): key,
required flag, optional default, type tag and declared length. -/
structure FieldDesc where
  key : Str
  required : Bool
  default : Option Str
  type : FieldType
  length : Nat
deriving DecidableEq, Repr

/-- A schema entry is either a scalar field descriptor or a repeating group
(an Array of sub-descriptors in the source, tested with instanceof Array). -/
inductive SchemaEntry where
  | scalar (f : FieldDesc)
  | group (g : List FieldDesc)
deriving DecidableEq, Repr

/-- The ordered field layout registered for one function code. -/
abbrev Schema := List SchemaEntry

/-- A JavaScript object used as a map: association list, first match wins.
Models both property lookup obj[k] (some value) and obj.hasOwnProperty(k)
(isSome). -/
def lookupAssoc {α : Type} : List (Str × α) → Str → Option α
  | [], _ => none
  | (k, v) :: rest, key => if k = key then some v else lookupAssoc rest key

/-- The caller's parameter set: scalar keys plus the optional list member
holding the repeating-group entries. -/
structure ParamsList where
  fields : List (Str × Str)
  list : Option (List (List (Str × Str)))
deriving DecidableEq, Repr

/-- Client configuration assembled by RegulatoryClient (regulatory.js lines
234-242), read-only afterwards. -/
structure ClientConfig where
  marketId : Str
  serviceType : Str
  macAddress : Str
  dateTimeFormat : Str
  defaultResponseCode : Str
  conFlag : Str
  countId : Str
deriving DecidableEq, Repr

/-- The regex test /^\d+$/.test(value): one or more ASCII digits, nothing
else; in particular the empty string fails. -/
def digitsOnly (s : Str) : Bool := !s.isEmpty && s.all Char.isDigit

/-- The extract closure of composeMessageBody (regulatory.js lines 81-101):
required-missing check, default substitution (default || yields the empty
string for an absent or empty default), digits-only format check for
String-typed fields, and the length-overflow check on the string length of
the value. -/
def extract (keyObject : FieldDesc) (dataObject : List (Str × Str)) : Except JsError Str :=
  if keyObject.required = true ∧ lookupAssoc dataObject keyObject.key = none then
    .error (.thrown missingKeyMsg)
  else
    match lookupAssoc dataObject keyObject.key with
    | none =>
        match keyObject.default with
        | none => .ok []
        | some d => .ok (if d = [] then [] else d)
    | some value =>
        if keyObject.type = FieldType.stringType ∧ digitsOnly value = false then
          .error (.thrown incorrectKeyMsg)
        else if value.length > keyObject.length then
          .error (.thrown keyOverflowMsg)
        else .ok value

/-- Inner loop of the repeating-group case (regulatory.js lines 108-110):
for one list item, append extract(subKey, listItem) + the delimiter for every
sub-descriptor of the group, in order, onto the accumulator. -/
def groupRow (item : List (Str × Str)) : List FieldDesc → Str → Except JsError Str
  | [], acc => .ok acc
  | f :: fs, acc =>
      match extract f item with
      | .error e => .error e
      | .ok v => groupRow item fs (acc ++ v ++ ['&'])

/-- Outer loop of the repeating-group case (regulatory.js lines 107-111):
run groupRow for every entry of the caller's list, in order. -/
def groupRows (g : List FieldDesc) : List (List (Str × Str)) → Str → Except JsError Str
  | [], acc => .ok acc
  | item :: rest, acc =>
      match groupRow item g acc with
      | .error e => .error e
      | .ok acc' => groupRows g rest acc'

/-- The main loop of composeMessageBody (regulatory.js lines 105-115) over
the schema entries, carrying the messageBody accumulator.  A repeating group
iterates this._paramsList.list with for..of: when the list member is absent
(undefined) that iteration raises a runtime TypeError. -/
def composeBodyAux (params : ParamsList) : Schema → Str → Except JsError Str
  | [], acc => .ok acc
  | .scalar f :: rest, acc =>
      match extract f params.fields with
      | .error e => .error e
      | .ok v => composeBodyAux params rest (acc ++ v ++ ['&'])
  | .group g :: rest, acc =>
      match params.list with
      | none => .error .typeError
      | some items =>
          match groupRows g items acc with
          | .error e => .error e
          | .ok acc' => composeBodyAux params rest acc'

/-- composeMessageBody (regulatory.js lines 78-117) for a resolved schema:
walk the schema entries with an initially empty accumulator. -/
def composeMessageBody (schema : Schema) (params : ParamsList) : Except JsError Str :=
  composeBodyAux params schema []

/-- Byte image of one character under the wire codec.  Modelled from the
spec: gbkEncode delegates to the external iconv-lite collaborator (spec
section 4.2); per the protocol contract an ASCII character occupies one byte
and any other character two bytes (the concrete non-ASCII byte values are
abstracted as the two halves of the code point; only byte counts are
protocol-relevant). -/
def gbkEncodeChar (c : Char) : List Nat :=
  if c.toNat < 128 then [c.toNat] else [c.toNat / 256 % 256, c.toNat % 256]

/-- gbkEncode (regulatory.js lines 12-14) via the modelled codec. -/
def gbkEncode (s : Str) : List Nat := (s.map gbkEncodeChar).flatten

/-- composeMessageHead (regulatory.js lines 123-139) with the current
timestamp (dateFormat(new Date(), ...)) passed explicitly and the byte length
of the encoded body (this.messageBodyBuffer.length) passed as a number.
Array(43).join(a space) is 42 spaces. -/
def composeMessageHead (cfg : ClientConfig) (functionCode clientLogId : Str)
    (now : Str) (bodyByteLen : Nat) : Str :=
  functionCode ++ cfg.serviceType ++ cfg.macAddress ++ now ++
    cfg.defaultResponseCode ++ List.replicate 42 ' ' ++ cfg.conFlag ++
    padString (numToString bodyByteLen) 8 ['0'] ++ cfg.countId ++
    clientLogId ++ cfg.marketId

/-- composeNetworkHead (regulatory.js lines 141-163), same conventions. -/
def composeNetworkHead (cfg : ClientConfig) (clientLogId : Str)
    (now : Str) (bodyByteLen : Nat) : Str :=
  "A001130101".toList ++ cfg.marketId ++ List.replicate 16 ' ' ++
    padString (numToString bodyByteLen) 10 ['0'] ++ "000000".toList ++
    cfg.countId ++ cfg.serviceType ++ now ++ clientLogId ++
    cfg.defaultResponseCode ++ List.replicate 100 ' ' ++ cfg.conFlag ++
    "000".toList ++ "0".toList ++ "0".toList ++ List.replicate 12 ' ' ++
    List.replicate 11 '0'

/-- The state of one RegulatoryMessage instance: the underscore-prefixed
instance fields of the source class.  messageBodyBufferF is an Option because
the constructor leaves _messageBodyBuffer unset (undefined) until the first
messageBodyBuffer access. -/
structure RegulatoryMessage where
  clientConfig : ClientConfig
  clientLogId : Str
  functionCode : Str
  paramsList : ParamsList
  messageBodyF : Str
  messageBodyBufferF : Option (List Nat)
  messageHeadF : Str
  networkHeadF : Str
deriving DecidableEq, Repr

/-- The RegulatoryMessage constructor (regulatory.js lines 53-72): pad the
client log id, check the function code against the schema table
(api.request.hasOwnProperty), then compose body, message head and network
head in that order.  Composing the message head reads the messageBodyBuffer
getter, which caches the encoded body, so a constructed message always
carries the cached buffer. -/
def mkRegulatoryMessage (table : List (Str × Schema)) (clientConfig : ClientConfig)
    (clientLogId functionCode : Str) (paramsList : ParamsList) (now : Str) :
    Except JsError RegulatoryMessage :=
  let logId := padString clientLogId 20 ['0']
  match lookupAssoc table functionCode with
  | none => .error (.thrown invalidFunctionCodeMsg)
  | some schema =>
      match composeMessageBody schema paramsList with
      | .error e => .error e
      | .ok body =>
          let buf := gbkEncode body
          .ok { clientConfig := clientConfig
                clientLogId := logId
                functionCode := functionCode
                paramsList := paramsList
                messageBodyF := body
                messageBodyBufferF := some buf
                messageHeadF := composeMessageHead clientConfig functionCode logId now buf.length
                networkHeadF := composeNetworkHead clientConfig logId now buf.length }

/-- The messageBody getter (regulatory.js lines 173-178): recompute when the
cached string is falsy (empty), else return the cache.  Recomputation reads
api.request[functionCode]; when that is absent the for..of over undefined
raises a TypeError. -/
def readMessageBody (table : List (Str × Schema)) (m : RegulatoryMessage) :
    Except JsError (Str × RegulatoryMessage) :=
  if m.messageBodyF = [] then
    match lookupAssoc table m.functionCode with
    | none => .error .typeError
    | some schema =>
        match composeMessageBody schema m.paramsList with
        | .error e => .error e
        | .ok b => .ok (b, { m with messageBodyF := b })
  else .ok (m.messageBodyF, m)

/-- The messageBodyBuffer getter (regulatory.js lines 180-185): a cached
Buffer object is always truthy (even when empty), so it is computed at most
once. -/
def readMessageBodyBuffer (table : List (Str × Schema)) (m : RegulatoryMessage) :
    Except JsError (List Nat × RegulatoryMessage) :=
  match m.messageBodyBufferF with
  | some buf => .ok (buf, m)
  | none =>
      match readMessageBody table m with
      | .error e => .error e
      | .ok (b, m') =>
          let buf := gbkEncode b
          .ok (buf, { m' with messageBodyBufferF := some buf })

/-- The messageHead getter (regulatory.js lines 187-192): the source tests
if (this._messageHead) with no negation, so a non-empty cached head is
recomputed (with a fresh Date) on every access, and only an empty cache is
returned as-is. -/
def readMessageHead (table : List (Str × Schema)) (m : RegulatoryMessage)
    (now : Str) : Except JsError (Str × RegulatoryMessage) :=
  if m.messageHeadF = [] then .ok (m.messageHeadF, m)
  else
    match readMessageBodyBuffer table m with
    | .error e => .error e
    | .ok (buf, m') =>
        let h := composeMessageHead m'.clientConfig m'.functionCode m'.clientLogId now buf.length
        .ok (h, { m' with messageHeadF := h })

/-- The networkHead getter (regulatory.js lines 194-199), same inverted cache
test as the messageHead getter. -/
def readNetworkHead (table : List (Str × Schema)) (m : RegulatoryMessage)
    (now : Str) : Except JsError (Str × RegulatoryMessage) :=
  if m.networkHeadF = [] then .ok (m.networkHeadF, m)
  else
    match readMessageBodyBuffer table m with
    | .error e => .error e
    | .ok (buf, m') =>
        let h := composeNetworkHead m'.clientConfig m'.clientLogId now buf.length
        .ok (h, { m' with networkHeadF := h })

/-! Specification-side helpers: the list of extracted field values in schema
order, entry counts, and the slices of the two headers that hold the body
length, located by the widths of the preceding fields. -/

/-- Append the field delimiter after every value and concatenate. -/
def glue (vs : List Str) : Str := (vs.map (fun v => v ++ ['&'])).flatten

/-- The extracted values of one repeating-group row, in sub-descriptor
order. -/
def rowValues (item : List (Str × Str)) : List FieldDesc → Except JsError (List Str)
  | [] => .ok []
  | f :: fs =>
      match extract f item with
      | .error e => .error e
      | .ok v =>
          match rowValues item fs with
          | .error e => .error e
          | .ok vs => .ok (v :: vs)

/-- The extracted values of all rows of one repeating group, in list order. -/
def groupValues (g : List FieldDesc) : List (List (Str × Str)) → Except JsError (List Str)
  | [] => .ok []
  | item :: rest =>
      match rowValues item g with
      | .error e => .error e
      | .ok vs =>
          match groupValues g rest with
          | .error e => .error e
          | .ok ws => .ok (vs ++ ws)

/-- All extracted values of a schema against a parameter set, scalars and
expanded repeating groups in schema order. -/
def extractedValues (params : ParamsList) : Schema → Except JsError (List Str)
  | [] => .ok []
  | .scalar f :: rest =>
      match extract f params.fields with
      | .error e => .error e
      | .ok v =>
          match extractedValues params rest with
          | .error e => .error e
          | .ok vs => .ok (v :: vs)
  | .group g :: rest =>
      match params.list with
      | none => .error .typeError
      | some items =>
          match groupValues g items with
          | .error e => .error e
          | .ok vs =>
              match extractedValues params rest with
              | .error e => .error e
              | .ok ws => .ok (vs ++ ws)

/-- Number of scalar entries plus expanded repeating-group entries (one per
sub-descriptor per list item). -/
def entryCount (params : ParamsList) : Schema → Nat
  | [] => 0
  | .scalar _ :: rest => 1 + entryCount params rest
  | .group g :: rest => (params.list.getD []).length * g.length + entryCount params rest

/-- Character offset of the 8-digit body-length field inside a message head:
the widths of the function code, service type, MAC address, timestamp,
default response code, the 42-space placeholder and the connection flag. -/
def msgHeadLenOffset (cfg : ClientConfig) (functionCode now : Str) : Nat :=
  functionCode.length + cfg.serviceType.length + cfg.macAddress.length +
    now.length + cfg.defaultResponseCode.length + 42 + cfg.conFlag.length

/-- The 8 characters of a message head that hold the body length. -/
def msgHeadLenField (cfg : ClientConfig) (functionCode now : Str) (head : Str) : Str :=
  (head.drop (msgHeadLenOffset cfg functionCode now)).take 8

/-- Character offset of the 10-digit body-length field inside a network head:
the literal tag (10 characters), the market id, and 16 spaces. -/
def netHeadLenOffset (cfg : ClientConfig) : Nat := 10 + cfg.marketId.length + 16

/-- The 10 characters of a network head that hold the body length. -/
def netHeadLenField (cfg : ClientConfig) (head : Str) : Str :=
  (head.drop (netHeadLenOffset cfg)).take 10

/-- Whether a schema has at least one repeating-group entry. -/
def containsGroup : Schema → Bool
  | [] => false
  | .scalar _ :: rest => containsGroup rest
  | .group _ :: _ => true

/-- The scalar descriptors that precede the first repeating group of a
schema. -/
def preGroupScalars : Schema → List FieldDesc
  | [] => []
  | .scalar f :: rest => f :: preGroupScalars rest
  | .group _ :: _ => []

/-! Helper lemmas. -/

/-- padString with a one-character spacer always returns exactly the
requested width. -/
theorem padString_length (s : Str) (w : Nat) (c : Char) :
    (padString s w [c]).length = w := by
  simp only [padString]
  split
  · omega
  · split
    · simp only [List.length_drop]; omega
    · simp
      omega

/-- padString at exact width returns the string unchanged. -/
theorem padString_eq_of_eq (s : Str) (w : Nat) (c : Char) (h : s.length = w) :
    padString s w [c] = s := by
  simp only [padString]
  rw [if_pos h]

/-- padString on a too-long string returns its trailing characters. -/
theorem padString_eq_of_gt (s : Str) (w : Nat) (c : Char) (h : s.length > w) :
    padString s w [c] = s.drop (s.length - w) := by
  simp only [padString]
  rw [if_neg (by omega), if_pos h]

/-- padString on a too-short string left-pads with the spacer character. -/
theorem padString_eq_of_lt (s : Str) (w : Nat) (c : Char) (h : s.length < w) :
    padString s w [c] = List.replicate (w - s.length) c ++ s := by
  simp only [padString]
  rw [if_neg (by omega), if_neg (by omega)]
  simp

/-- Dropping the length of the left part of an append, plus extra, drops into
the right part. -/
theorem drop_append_len {α : Type} (a b : List α) (n : Nat) :
    (a ++ b).drop (a.length + n) = b.drop n :=
  List.drop_append n

theorem glue_nil : glue [] = [] := rfl

theorem glue_cons (v : Str) (vs : List Str) : glue (v :: vs) = v ++ ['&'] ++ glue vs := by
  simp [glue]

theorem glue_append (a b : List Str) : glue (a ++ b) = glue a ++ glue b := by
  simp [glue]

/-- The accumulator-passing inner loop equals the value list with the
accumulator prepended. -/
theorem groupRow_eq (item : List (Str × Str)) (fs : List FieldDesc) :
    ∀ acc, groupRow item fs acc = (rowValues item fs).map (fun vs => acc ++ glue vs) := by
  induction fs with
  | nil => intro acc; simp [groupRow, rowValues, glue, Except.map]
  | cons f fs ih =>
      intro acc
      simp only [groupRow, rowValues]
      cases hf : extract f item with
      | error e => simp [Except.map]
      | ok v =>
          dsimp only
          rw [ih]
          cases hr : rowValues item fs with
          | error e => simp [Except.map]
          | ok vs => simp [Except.map, glue_cons, List.append_assoc]

/-- The accumulator-passing outer group loop equals the flattened group value
list with the accumulator prepended. -/
theorem groupRows_eq (g : List FieldDesc) (items : List (List (Str × Str))) :
    ∀ acc, groupRows g items acc = (groupValues g items).map (fun vs => acc ++ glue vs) := by
  induction items with
  | nil => intro acc; simp [groupRows, groupValues, glue, Except.map]
  | cons item rest ih =>
      intro acc
      simp only [groupRows, groupValues]
      rw [groupRow_eq]
      cases hr : rowValues item g with
      | error e => simp [Except.map]
      | ok vs =>
          simp only [Except.map]
          rw [ih]
          cases hg : groupValues g rest with
          | error e => simp [Except.map]
          | ok ws => simp [Except.map, glue_append, List.append_assoc]

/-- The body-building loop equals the extracted value list, delimited and
flattened, with the accumulator prepended. -/
theorem composeBodyAux_eq (params : ParamsList) (schema : Schema) :
    ∀ acc, composeBodyAux params schema acc
      = (extractedValues params schema).map (fun vs => acc ++ glue vs) := by
  induction schema with
  | nil => intro acc; simp [composeBodyAux, extractedValues, glue, Except.map]
  | cons entry rest ih =>
      intro acc
      cases entry with
      | scalar f =>
          simp only [composeBodyAux, extractedValues]
          cases hf : extract f params.fields with
          | error e => simp [Except.map]
          | ok v =>
              dsimp only
              rw [ih]
              cases hr : extractedValues params rest with
              | error e => simp [Except.map]
              | ok vs => simp [Except.map, glue_cons, List.append_assoc]
      | group g =>
          simp only [composeBodyAux, extractedValues]
          cases hl : params.list with
          | none => simp [Except.map]
          | some items =>
              dsimp only
              rw [groupRows_eq]
              cases hg : groupValues g items with
              | error e => simp [Except.map]
              | ok vs =>
                  simp only [Except.map]
                  rw [ih]
                  cases hr : extractedValues params rest with
                  | error e => simp [Except.map]
                  | ok ws => simp [Except.map, glue_append, List.append_assoc]

/-- The produced body is exactly the delimited concatenation of the extracted
values. -/
theorem composeMessageBody_eq (schema : Schema) (params : ParamsList) :
    composeMessageBody schema params = (extractedValues params schema).map glue := by
  rw [composeMessageBody, composeBodyAux_eq]
  cases extractedValues params schema <;> simp [Except.map]

/-- One group row yields one value per sub-descriptor. -/
theorem rowValues_length (item : List (Str × Str)) (fs : List FieldDesc) :
    ∀ vs, rowValues item fs = .ok vs → vs.length = fs.length := by
  induction fs with
  | nil =>
      intro vs h
      simp only [rowValues] at h
      injection h with h
      simp [← h]
  | cons f fs ih =>
      intro vs h
      simp only [rowValues] at h
      cases hf : extract f item <;> rw [hf] at h
      · exact absurd h (by simp)
      · cases hr : rowValues item fs <;> rw [hr] at h
        · exact absurd h (by simp)
        · injection h with h
          subst h
          simp [ih _ hr]

/-- A group yields one value per sub-descriptor per list item. -/
theorem groupValues_length (g : List FieldDesc) (items : List (List (Str × Str))) :
    ∀ vs, groupValues g items = .ok vs → vs.length = items.length * g.length := by
  induction items with
  | nil =>
      intro vs h
      simp only [groupValues] at h
      injection h with h
      simp [← h]
  | cons item rest ih =>
      intro vs h
      simp only [groupValues] at h
      cases hr : rowValues item g <;> rw [hr] at h
      · exact absurd h (by simp)
      · cases hg : groupValues g rest <;> rw [hg] at h
        · exact absurd h (by simp)
        · injection h with h
          subst h
          simp [rowValues_length item g _ hr, ih _ hg, Nat.succ_mul]
          omega

/-- The extracted value list has one value per scalar entry plus one per
expanded repeating-group entry. -/
theorem extractedValues_length (params : ParamsList) (schema : Schema) :
    ∀ vs, extractedValues params schema = .ok vs → vs.length = entryCount params schema := by
  induction schema with
  | nil =>
      intro vs h
      simp only [extractedValues] at h
      injection h with h
      simp [← h, entryCount]
  | cons entry rest ih =>
      intro vs h
      cases entry with
      | scalar f =>
          simp only [extractedValues] at h
          cases hf : extract f params.fields <;> rw [hf] at h
          · exact absurd h (by simp)
          · cases hr : extractedValues params rest <;> rw [hr] at h
            · exact absurd h (by simp)
            · injection h with h
              subst h
              simp [entryCount, ih _ hr]
              omega
      | group g =>
          simp only [extractedValues] at h
          cases hl : params.list <;> rw [hl] at h
          · exact absurd h (by simp)
          · rename_i items
            dsimp only at h
            cases hg : groupValues g items <;> rw [hg] at h
            · exact absurd h (by simp)
            · cases hr : extractedValues params rest <;> rw [hr] at h
              · exact absurd h (by simp)
              · injection h with h
                subst h
                simp [entryCount, hl, groupValues_length g items _ hg, ih _ hr]

/-- Delimiter count of a glued value list: one per value plus whatever
delimiters occur inside the values themselves. -/
theorem count_amp_glue (vs : List Str) :
    (glue vs).count '&' = vs.length + (vs.map (fun v => v.count '&')).sum := by
  induction vs with
  | nil => rfl
  | cons v vs ih =>
      simp [glue_cons, List.count_append, ih]
      omega

/-- Slicing the message head at the length-field offset recovers exactly the
padded body length. -/
theorem msgHeadLenField_compose (cfg : ClientConfig) (fc logId now : Str) (n : Nat) :
    msgHeadLenField cfg fc now (composeMessageHead cfg fc logId now n)
      = padString (numToString n) 8 ['0'] := by
  unfold msgHeadLenField composeMessageHead
  rw [show msgHeadLenOffset cfg fc now
        = fc.length + (cfg.serviceType.length + (cfg.macAddress.length + (now.length
          + (cfg.defaultResponseCode.length + ((List.replicate 42 ' ').length
          + (cfg.conFlag.length + 0)))))) by simp [msgHeadLenOffset]; omega]
  simp only [List.append_assoc]
  rw [drop_append_len, drop_append_len, drop_append_len, drop_append_len,
      drop_append_len, drop_append_len, drop_append_len]
  simp only [List.drop_zero]
  exact List.take_left' (padString_length _ _ _)

/-- Slicing the network head at the length-field offset recovers exactly the
padded body length. -/
theorem netHeadLenField_compose (cfg : ClientConfig) (logId now : Str) (n : Nat) :
    netHeadLenField cfg (composeNetworkHead cfg logId now n)
      = padString (numToString n) 10 ['0'] := by
  unfold netHeadLenField composeNetworkHead
  rw [show netHeadLenOffset cfg
        = ("A001130101".toList).length + (cfg.marketId.length
          + ((List.replicate 16 ' ').length + 0)) by
    rw [show ("A001130101".toList).length = 10 from rfl]
    simp [netHeadLenOffset]
    omega]
  simp only [List.append_assoc]
  rw [drop_append_len, drop_append_len, drop_append_len]
  simp only [List.drop_zero]
  exact List.take_left' (padString_length _ _ _)

/-- Inversion of a successful construction: the schema was registered, the
body built successfully, and every stored field is determined by the
inputs. -/
theorem mk_ok_inv (table : List (Str × Schema)) (cfg : ClientConfig)
    (logId fc : Str) (params : ParamsList) (now : Str) (m : RegulatoryMessage)
    (h : mkRegulatoryMessage table cfg logId fc params now = .ok m) :
    ∃ schema body, lookupAssoc table fc = some schema
      ∧ composeMessageBody schema params = .ok body
      ∧ m = { clientConfig := cfg
              clientLogId := padString logId 20 ['0']
              functionCode := fc
              paramsList := params
              messageBodyF := body
              messageBodyBufferF := some (gbkEncode body)
              messageHeadF := composeMessageHead cfg fc (padString logId 20 ['0']) now
                                (gbkEncode body).length
              networkHeadF := composeNetworkHead cfg (padString logId 20 ['0']) now
                                (gbkEncode body).length } := by
  simp only [mkRegulatoryMessage] at h
  cases hl : lookupAssoc table fc <;> rw [hl] at h
  · exact absurd h (by simp)
  · rename_i schema
    dsimp only at h
    cases hb : composeMessageBody schema params <;> rw [hb] at h
    · exact absurd h (by simp)
    · rename_i body
      injection h with h
      exact ⟨schema, body, rfl, hb, h.symm⟩

/-! Concrete fixtures used to instantiate the theorems. -/

/-- A small concrete client configuration. -/
def wCfg : ClientConfig :=
  { marketId := "M".toList
    serviceType := "S".toList
    macAddress := "C".toList
    dateTimeFormat := []
    defaultResponseCode := "R".toList
    conFlag := "F".toList
    countId := "I".toList }

/-- A schema table registering an empty schema for function code 0001. -/
def wTable : List (Str × Schema) := [("0001".toList, [])]

/-- An empty parameter set with no list member. -/
def wParams : ParamsList := { fields := [], list := none }

/-- Fallback message value for extracting successful constructions. -/
def wMsgFallback : RegulatoryMessage :=
  { clientConfig := wCfg, clientLogId := [], functionCode := [], paramsList := wParams,
    messageBodyF := [], messageBodyBufferF := none, messageHeadF := [], networkHeadF := [] }

/-- The message constructed from the fixtures at timestamp T0. -/
def wMsg : RegulatoryMessage :=
  (mkRegulatoryMessage wTable wCfg ("42".toList) ("0001".toList) wParams
    ("T0".toList)).toOption.getD wMsgFallback

/-! Claim theorems. -/

/-- C1: for every successfully constructed RegulatoryMessage, the 8-character
length slice of the stored message head and the 10-character length slice of
the stored network head both equal the byte length of the GBK-encoded final
body, rendered through padString with fill 0 (left-truncating when the
decimal is wider than the slice); both slices are functions of the finalized
body. -/
theorem C1_header_length_fields (table : List (Str × Schema)) (cfg : ClientConfig)
    (clientLogId functionCode : Str) (params : ParamsList) (now : Str)
    (m : RegulatoryMessage)
    (h : mkRegulatoryMessage table cfg clientLogId functionCode params now = .ok m) :
    msgHeadLenField cfg functionCode now m.messageHeadF
        = padString (numToString (gbkEncode m.messageBodyF).length) 8 ['0']
      ∧ netHeadLenField cfg m.networkHeadF
        = padString (numToString (gbkEncode m.messageBodyF).length) 10 ['0']
      ∧ (msgHeadLenField cfg functionCode now m.messageHeadF).length = 8
      ∧ (netHeadLenField cfg m.networkHeadF).length = 10 := by
  obtain ⟨schema, body, hl, hb, hm⟩ :=
    mk_ok_inv table cfg clientLogId functionCode params now m h
  subst hm
  dsimp only
  rw [msgHeadLenField_compose, netHeadLenField_compose]
  exact ⟨rfl, rfl, padString_length _ _ _, padString_length _ _ _⟩

/-- Witness for C1 at the concrete fixtures. -/
theorem C1_header_length_fields_witness :
    msgHeadLenField wCfg ("0001".toList) ("T0".toList) wMsg.messageHeadF
        = padString (numToString (gbkEncode wMsg.messageBodyF).length) 8 ['0']
      ∧ netHeadLenField wCfg wMsg.networkHeadF
        = padString (numToString (gbkEncode wMsg.messageBodyF).length) 10 ['0']
      ∧ (msgHeadLenField wCfg ("0001".toList) ("T0".toList) wMsg.messageHeadF).length = 8
      ∧ (netHeadLenField wCfg wMsg.networkHeadF).length = 10 :=
  C1_header_length_fields wTable wCfg ("42".toList) ("0001".toList) wParams
    ("T0".toList) wMsg (by rfl)

/-- C3: when the function code has no registered schema, construction fails
with the invalid-function-code Error, for every parameter set, before any
body or header is built, and no message value is produced. -/
theorem C3_unknown_function_code (table : List (Str × Schema)) (cfg : ClientConfig)
    (clientLogId functionCode : Str) (params : ParamsList) (now : Str)
    (h : lookupAssoc table functionCode = (none : Option Schema)) :
    mkRegulatoryMessage table cfg clientLogId functionCode params now
      = .error (.thrown invalidFunctionCodeMsg) := by
  simp only [mkRegulatoryMessage]
  rw [h]

/-- Witness for C3: the empty table knows no function code. -/
theorem C3_unknown_function_code_witness :
    mkRegulatoryMessage [] wCfg ("42".toList) ("9999".toList) wParams ("T0".toList)
      = .error (.thrown invalidFunctionCodeMsg) :=
  C3_unknown_function_code [] wCfg ("42".toList) ("9999".toList) wParams ("T0".toList) rfl

/-- C7: the stored client log id of every constructed message is exactly 20
characters: kept when already 20, truncated to the trailing 20 when longer,
left-padded with 0 when shorter. -/
theorem C7_client_log_id_normalized (table : List (Str × Schema)) (cfg : ClientConfig)
    (clientLogId functionCode : Str) (params : ParamsList) (now : Str)
    (m : RegulatoryMessage)
    (h : mkRegulatoryMessage table cfg clientLogId functionCode params now = .ok m) :
    m.clientLogId.length = 20
    ∧ (clientLogId.length = 20 → m.clientLogId = clientLogId)
    ∧ (clientLogId.length > 20 →
        m.clientLogId = clientLogId.drop (clientLogId.length - 20))
    ∧ (clientLogId.length < 20 →
        m.clientLogId = List.replicate (20 - clientLogId.length) '0' ++ clientLogId) := by
  obtain ⟨schema, body, hl, hb, hm⟩ :=
    mk_ok_inv table cfg clientLogId functionCode params now m h
  subst hm
  dsimp only
  exact ⟨padString_length _ _ _, padString_eq_of_eq _ _ _,
         padString_eq_of_gt _ _ _, padString_eq_of_lt _ _ _⟩

/-- Witness for C7: the two-character id 42 is padded to twenty. -/
theorem C7_client_log_id_normalized_witness :
    wMsg.clientLogId = List.replicate (20 - ("42".toList).length) '0' ++ "42".toList :=
  (C7_client_log_id_normalized wTable wCfg ("42".toList) ("0001".toList) wParams
    ("T0".toList) wMsg (by rfl)).2.2.2 (by decide)

/-- C8: padString returns the value unchanged at exact width, the trailing
width characters when longer, and left-pads with the fill character when
shorter; including the three concrete examples from the spec. -/
theorem C8_padString_spec (s : Str) (w : Nat) (c : Char) :
    (s.length = w → padString s w [c] = s)
    ∧ (s.length > w → padString s w [c] = s.drop (s.length - w))
    ∧ (s.length < w → padString s w [c] = List.replicate (w - s.length) c ++ s)
    ∧ padString ("12345".toList) 8 ("0".toList) = "00012345".toList
    ∧ padString ("123456789".toList) 8 ("0".toList) = "23456789".toList
    ∧ padString ("abc".toList) 3 ("0".toList) = "abc".toList :=
  ⟨padString_eq_of_eq s w c, padString_eq_of_gt s w c, padString_eq_of_lt s w c,
   by decide, by decide, by decide⟩

/-- Witness for C8: a short string is left-padded with the fill character. -/
theorem C8_padString_spec_witness :
    padString ("ab".toList) 5 ['x']
      = List.replicate (5 - ("ab".toList).length) 'x' ++ "ab".toList :=
  (C8_padString_spec ("ab".toList) 5 'x').2.2.1 (by decide)

/-- Schema with one untyped scalar whose value may contain the delimiter. -/
def c2Schema : Schema :=
  [SchemaEntry.scalar
    { key := "a".toList, required := true, default := none,
      type := FieldType.other, length := 5 }]

/-- Parameter set whose single value contains a delimiter character. -/
def c2Params : ParamsList := { fields := [("a".toList, "x&y".toList)], list := none }

/-- C2 counterexample: body building succeeds on a value that itself contains
the delimiter, and then the delimiter count of the body (2) differs from the
number of schema entries (1), so the delimited field count does not equal the
entry count. -/
theorem C2_field_count_counterexample :
    composeMessageBody c2Schema c2Params = .ok ("x&y&".toList)
    ∧ ("x&y&".toList).count '&' = 2
    ∧ entryCount c2Params c2Schema = 1 :=
  ⟨rfl, by decide, rfl⟩

/-- C2 amended: every successfully built body is the in-schema-order
concatenation of one extracted value per scalar entry plus one per
sub-descriptor per list item of each repeating group, each value followed by
exactly one delimiter; the delimiter count equals the entry count plus the
delimiters occurring inside the extracted values themselves (so it equals the
entry count whenever no value contains a delimiter). -/
theorem C2_body_structure (schema : Schema) (params : ParamsList) (b : Str)
    (h : composeMessageBody schema params = .ok b) :
    ∃ vs, extractedValues params schema = .ok vs
      ∧ b = glue vs
      ∧ vs.length = entryCount params schema
      ∧ b.count '&'
          = entryCount params schema + (vs.map (fun v => v.count '&')).sum := by
  rw [composeMessageBody_eq] at h
  cases hv : extractedValues params schema <;> rw [hv] at h
  · exact absurd h (by simp [Except.map])
  · rename_i vs
    simp only [Except.map] at h
    injection h with h
    subst h
    refine ⟨vs, rfl, rfl, extractedValues_length params schema vs hv, ?_⟩
    rw [count_amp_glue, extractedValues_length params schema vs hv]

/-- Schema exercising both a scalar and a repeating group for the C2
witness. -/
def c2wSchema : Schema :=
  [SchemaEntry.scalar
    { key := "a".toList, required := false, default := some ("7".toList),
      type := FieldType.stringType, length := 3 },
   SchemaEntry.group
    [{ key := "k".toList, required := true, default := none,
       type := FieldType.other, length := 9 }]]

/-- Parameter set with one scalar and a two-item list for the C2 witness. -/
def c2wParams : ParamsList :=
  { fields := [("a".toList, "12".toList)],
    list := some [[("k".toList, "u".toList)], [("k".toList, "vv".toList)]] }

/-- Witness for C2 at a schema with a scalar and a repeating group. -/
theorem C2_body_structure_witness :
    ∃ vs, extractedValues c2wParams c2wSchema = .ok vs
      ∧ "12&u&vv&".toList = glue vs
      ∧ vs.length = entryCount c2wParams c2wSchema
      ∧ ("12&u&vv&".toList).count '&'
          = entryCount c2wParams c2wSchema + (vs.map (fun v => v.count '&')).sum :=
  C2_body_structure c2wSchema c2wParams ("12&u&vv&".toList) (by rfl)

/-- First read of the messageHead getter at timestamp T1. -/
def c4Read1 : Str × RegulatoryMessage :=
  (readMessageHead wTable wMsg ("T1".toList)).toOption.getD ([], wMsg)

/-- Second read of the messageHead getter, on the updated state, at
timestamp T2. -/
def c4Read2 : Str × RegulatoryMessage :=
  (readMessageHead wTable c4Read1.2 ("T2".toList)).toOption.getD ([], wMsg)

/-- C4: the messageHead getter tests the cache without negation, so a
constructed message (whose cached head is non-empty) is recomputed with a
fresh timestamp on every access: two successive reads of the same message
return different strings once the clock has advanced, refuting idempotence
and consistency with construction-time inputs. -/
theorem C4_messageHead_reads_differ :
    readMessageHead wTable wMsg ("T1".toList) = .ok c4Read1
    ∧ readMessageHead wTable c4Read1.2 ("T2".toList) = .ok c4Read2
    ∧ c4Read1.1 ≠ c4Read2.1 :=
  ⟨rfl, rfl, by decide⟩

/-- Table registering schemas with differently named required fields under
two function codes. -/
def c5Table : List (Str × Schema) :=
  [("0001".toList,
    [SchemaEntry.scalar
      { key := "amt".toList, required := true, default := none,
        type := FieldType.other, length := 5 }]),
   ("0002".toList,
    [SchemaEntry.scalar
      { key := "xyz".toList, required := true, default := none,
        type := FieldType.other, length := 5 }])]

/-- C5: a missing required field does abort construction with the
missing-key Error, but the source builds the message from single-quoted
literals, so the placeholders are not interpolated: the message is one
constant string, identical for different field keys and function codes, and
names neither. -/
theorem C5_missing_key_message_not_interpolated :
    mkRegulatoryMessage c5Table wCfg ("42".toList) ("0001".toList) wParams ("T0".toList)
      = .error (.thrown missingKeyMsg)
    ∧ mkRegulatoryMessage c5Table wCfg ("42".toList) ("0002".toList) wParams ("T0".toList)
      = .error (.thrown missingKeyMsg)
    ∧ missingKeyMsg
      = "[PINGAN] Missing key $\x7bkeyObject.key\x7d for function $\x7bself._functionCode\x7d" :=
  ⟨rfl, rfl, rfl⟩

/-- Schema with an untyped field of declared length 3. -/
def c6Schema : Schema :=
  [SchemaEntry.scalar
    { key := "memo".toList, required := true, default := none,
      type := FieldType.other, length := 3 }]

/-- Parameter set carrying a three-character CJK value (six wire bytes). -/
def c6Params : ParamsList :=
  { fields := [("memo".toList, "中中中".toList)], list := none }

/-- C6 counterexample: a value of three CJK characters occupies six bytes on
the wire, exceeding the declared length 3, yet body building succeeds with no
FieldOverflow, because the source compares the character count of the value,
not its encoded byte width. -/
theorem C6_byte_width_counterexample :
    composeMessageBody c6Schema c6Params = .ok ("中中中&".toList)
    ∧ (gbkEncode ("中中中".toList)).length = 6
    ∧ 6 > 3 :=
  ⟨rfl, rfl, by decide⟩

/-- C6 amended: for a present value that passes the format check, body
building fails with the overflow Error exactly when the character count of
the value exceeds the declared length, and otherwise emits the value as-is,
with no truncation or padding; the encoded byte width is not consulted. -/
theorem C6_overflow_checks_char_count (f : FieldDesc) (data : List (Str × Str))
    (v : Str) (hv : lookupAssoc data f.key = some v)
    (hfmt : ¬(f.type = FieldType.stringType ∧ digitsOnly v = false)) :
    (v.length > f.length → extract f data = .error (.thrown keyOverflowMsg))
    ∧ (v.length ≤ f.length → extract f data = .ok v) := by
  have h1 : ¬(f.required = true ∧ lookupAssoc data f.key = none) := by simp [hv]
  constructor <;> intro hlen
  · simp only [extract]
    rw [if_neg h1, hv]
    dsimp only
    rw [if_neg hfmt, if_pos hlen]
  · simp only [extract]
    rw [if_neg h1, hv]
    dsimp only
    rw [if_neg hfmt, if_neg (by omega)]

/-- A digit-typed field of declared length 2 for the C6 witness. -/
def c6wField : FieldDesc :=
  { key := "n".toList, required := true, default := none,
    type := FieldType.stringType, length := 2 }

/-- Data carrying a three-digit value for the C6 witness. -/
def c6wData : List (Str × Str) := [("n".toList, "123".toList)]

/-- Witness for C6: a three-character value against declared length two
yields the overflow Error. -/
theorem C6_overflow_checks_char_count_witness :
    extract c6wField c6wData = .error (.thrown keyOverflowMsg) :=
  (C6_overflow_checks_char_count c6wField c6wData ("123".toList)
    (by rfl) (by decide)).1 (by decide)

/-- C9: a non-required field absent from the data is answered with its
default (empty when the default is absent or empty), with no format or
length check applied, whatever the default's content. -/
theorem C9_default_bypasses_validation (f : FieldDesc) (data : List (Str × Str))
    (hreq : f.required = false) (habs : lookupAssoc data f.key = none) :
    extract f data = .ok (f.default.getD []) := by
  simp only [extract]
  rw [if_neg (by simp [hreq]), habs]
  dsimp only
  cases hd : f.default with
  | none => rfl
  | some d =>
      by_cases hde : d = []
      · simp [hde]
      · simp [hde]

/-- A non-required field whose default fails both the digits-only check and
the length bound, and even contains the delimiter. -/
def c9wField : FieldDesc :=
  { key := "k".toList, required := false, default := some ("ab&cd".toList),
    type := FieldType.stringType, length := 1 }

/-- Witness for C9: the invalid default is emitted unchecked. -/
theorem C9_default_bypasses_validation_witness :
    extract c9wField [] = .ok (c9wField.default.getD [])
    ∧ digitsOnly ("ab&cd".toList) = false
    ∧ ("ab&cd".toList).length > c9wField.length :=
  ⟨C9_default_bypasses_validation c9wField [] rfl rfl, by decide, by decide⟩

/-- Schema with a required scalar followed by a repeating group. -/
def c10Schema : Schema :=
  [SchemaEntry.scalar
    { key := "a".toList, required := true, default := none,
      type := FieldType.other, length := 5 },
   SchemaEntry.group
    [{ key := "k".toList, required := true, default := none,
       type := FieldType.other, length := 5 }]]

/-- Table registering that schema under function code 0001. -/
def c10Table : List (Str × Schema) := [("0001".toList, c10Schema)]

/-- C10 counterexample: a schema containing a repeating group, with a
parameter set lacking the list member, can fail with the classified
missing-required-field Error (from a scalar checked before the group is
reached) rather than the unclassified TypeError. -/
theorem C10_missing_list_counterexample :
    containsGroup c10Schema = true
    ∧ wParams.list = none
    ∧ mkRegulatoryMessage c10Table wCfg ("42".toList) ("0001".toList) wParams ("T0".toList)
      = .error (.thrown missingKeyMsg)
    ∧ JsError.thrown missingKeyMsg ≠ JsError.typeError :=
  ⟨rfl, rfl, rfl, by decide⟩

/-- No accumulator state can make the body loop succeed when the schema has a
group and the parameter set has no list. -/
theorem composeBodyAux_no_ok (params : ParamsList) (hlist : params.list = none) :
    ∀ schema acc, containsGroup schema = true →
      ∀ b, composeBodyAux params schema acc ≠ .ok b := by
  intro schema
  induction schema with
  | nil => intro acc hg; simp [containsGroup] at hg
  | cons entry rest ih =>
      intro acc hg b
      cases entry with
      | scalar f =>
          simp only [composeBodyAux]
          cases hf : extract f params.fields
          · simp
          · dsimp only
            exact ih _ (by simpa [containsGroup] using hg) b
      | group g =>
          simp [composeBodyAux, hlist]

/-- When every scalar before the first group extracts successfully, the body
loop reaches the group and raises the TypeError, for any accumulator. -/
theorem composeBodyAux_typeError (params : ParamsList) (hlist : params.list = none) :
    ∀ schema acc, containsGroup schema = true →
      (∀ f ∈ preGroupScalars schema, ∃ v, extract f params.fields = .ok v) →
      composeBodyAux params schema acc = .error .typeError := by
  intro schema
  induction schema with
  | nil => intro acc hg; simp [containsGroup] at hg
  | cons entry rest ih =>
      intro acc hg hok
      cases entry with
      | scalar f =>
          obtain ⟨v, hv⟩ := hok f (by simp [preGroupScalars])
          simp only [composeBodyAux, hv]
          exact ih _ (by simpa [containsGroup] using hg)
            (fun f' hf' => hok f'
              (by simp only [preGroupScalars, List.mem_cons]; exact Or.inr hf'))
      | group g =>
          simp [composeBodyAux, hlist]

/-- C10 amended: with a registered schema that contains a repeating group and
a parameter set lacking the list member, construction never succeeds; and
whenever every scalar preceding the first group extracts successfully, it
fails with the unclassified runtime TypeError (iterating an undefined value)
rather than one of the five classified Errors. -/
theorem C10_missing_list (table : List (Str × Schema)) (cfg : ClientConfig)
    (clientLogId functionCode : Str) (params : ParamsList) (now : Str)
    (schema : Schema)
    (hl : lookupAssoc table functionCode = some schema)
    (hg : containsGroup schema = true)
    (hlist : params.list = none) :
    (∀ m, mkRegulatoryMessage table cfg clientLogId functionCode params now ≠ .ok m)
    ∧ ((∀ f ∈ preGroupScalars schema, ∃ v, extract f params.fields = .ok v) →
        mkRegulatoryMessage table cfg clientLogId functionCode params now
          = .error JsError.typeError) := by
  constructor
  · intro m hm
    obtain ⟨schema', body, hl', hb, _⟩ :=
      mk_ok_inv table cfg clientLogId functionCode params now m hm
    rw [hl] at hl'
    injection hl' with hl'
    subst hl'
    rw [composeMessageBody] at hb
    exact composeBodyAux_no_ok params hlist schema [] hg body hb
  · intro hok
    simp only [mkRegulatoryMessage]
    rw [hl]
    dsimp only
    rw [show composeMessageBody schema params = .error JsError.typeError from
      composeBodyAux_typeError params hlist schema [] hg hok]

/-- A schema whose only entry is a repeating group, for the C10 witness. -/
def c10wSchema : Schema :=
  [SchemaEntry.group
    [{ key := "k".toList, required := true, default := none,
       type := FieldType.other, length := 5 }]]

/-- Table registering the group-only schema. -/
def c10wTable : List (Str × Schema) := [("0001".toList, c10wSchema)]

/-- Witness for C10: with no scalars before the group, construction fails
with the TypeError. -/
theorem C10_missing_list_witness :
    mkRegulatoryMessage c10wTable wCfg ("42".toList) ("0001".toList) wParams ("T0".toList)
      = .error JsError.typeError :=
  (C10_missing_list c10wTable wCfg ("42".toList) ("0001".toList) wParams ("T0".toList)
    c10wSchema rfl rfl rfl).2
    (by intro f hf; simp [preGroupScalars, c10wSchema] at hf)

end PinganRegulatory
